import Mathlib

/-!
Verification of the temporal-state annotator core of the `supervision` fork
(`src/supervision/annotators/core.py` and `src/supervision/keypoint/core.py`).

The Python code is shallowly embedded: pure helpers become Lean functions,
the stateful annotate methods become explicit state-passing functions, numpy
arrays over a frame become functions `Fin h → Fin w → ℕ` (accumulator values
are sums of 0/1 masks, hence naturals), and code that can raise becomes
`Except`. Frame pixels are BGR triples of naturals (8-bit values).
-/

namespace Supervision

/-- The nine box-relative anchor positions of `supervision.geometry.core.Position`
handled by `HeatmapAnnotator.get_xy` (external enum; only its inhabitants matter
here). -/
inductive Position where
  | TOP_LEFT
  | TOP_CENTER
  | TOP_RIGHT
  | CENTER_LEFT
  | CENTER
  | CENTER_RIGHT
  | BOTTOM_LEFT
  | BOTTOM_CENTER
  | BOTTOM_RIGHT
deriving DecidableEq, Repr

/-- A detection bounding box `(x1, y1, x2, y2)` in pixel coordinates. -/
structure Box where
  x1 : Int
  y1 : Int
  x2 : Int
  y2 : Int
deriving DecidableEq, Repr

/-- One detection record: bounding box plus the optional integer tracker
identity (`Detections.xyxy[i]` and `Detections.tracker_id[i]`; `none` models a
detection that carries no tracker identity). -/
structure Detection where
  box : Box
  trackerId : Option Int := none
deriving DecidableEq, Repr

/-- Python `int((a + b) / 2)`: float true division of two ints by 2 is exact,
and `int` truncates toward zero, which is truncating division by 2. -/
def truncHalf (a b : Int) : Int :=
  Int.tdiv (a + b) 2

/-- Embeds `HeatmapAnnotator.get_xy` (src/supervision/annotators/core.py:115-138):
anchor point of a box for a given (optional) position.  `none` falls into the
same branch as `TOP_LEFT`. -/
def getXY (b : Box) (pos : Option Position) : Int × Int :=
  match pos with
  | none => (b.x1, b.y1)
  | some Position.TOP_LEFT => (b.x1, b.y1)
  | some Position.TOP_CENTER => (truncHalf b.x1 b.x2, b.y1)
  | some Position.TOP_RIGHT => (b.x2, b.y1)
  | some Position.CENTER_LEFT => (b.x1, truncHalf b.y1 b.y2)
  | some Position.CENTER => (truncHalf b.x1 b.x2, truncHalf b.y1 b.y2)
  | some Position.CENTER_RIGHT => (b.x2, truncHalf b.y1 b.y2)
  | some Position.BOTTOM_LEFT => (b.x1, b.y2)
  | some Position.BOTTOM_CENTER => (truncHalf b.x1 b.x2, b.y2)
  | some Position.BOTTOM_RIGHT => (b.x2, b.y2)

/-- Returns `true` iff an `Except` computation finished without raising. -/
def exceptOk {ε α : Type} : Except ε α → Bool
  | Except.ok _ => true
  | Except.error _ => false

/-- Python `len(a)` on a numpy array modelled by its shape: the first
dimension, or a `TypeError` on a 0-d array. -/
def npLen : List Nat → Except String Nat
  | [] => Except.error "TypeError: len() of unsized object"
  | n :: _ => Except.ok n

/-- Embeds `_validate_keypoint_structure` (src/supervision/keypoint/core.py:9-18):
valid iff the array's shape is exactly `(n, m, 2)` or `(n, m, 3)`. -/
def validateKeypointStructure (shape : List Nat) (n m : Nat) : Except String Unit :=
  if shape = [n, m, 2] ∨ shape = [n, m, 3] then Except.ok ()
  else Except.error "ValueError: keypoint structure must be a (N, M, 2) or (N, M, 3) shape"

/-- Embeds `_validate_confidence` (src/supervision/keypoint/core.py:21-29): when
confidence is present its shape must be exactly `(n, m)`. -/
def validateConfidence (cshape : Option (List Nat)) (n m : Nat) : Except String Unit :=
  match cshape with
  | none => Except.ok ()
  | some s =>
      if s = [n, m] then Except.ok ()
      else Except.error "ValueError: confidence must be a (N, M) shape"

/-- Embeds `Keypoints` dataclass construction (src/supervision/keypoint/core.py:32-51):
`__post_init__` computes `n = len(keypoints)`,
`m = len(keypoints[0]) if len(keypoints) > 0 else 0` and runs both validators;
arrays are modelled by their shapes (only shapes are inspected). An `error`
models the raised exception: no instance escapes the constructor. -/
def keypointsInit (kshape : List Nat) (cshape : Option (List Nat)) :
    Except String (List Nat × Option (List Nat)) :=
  match npLen kshape with
  | Except.error e => Except.error e
  | Except.ok n =>
      match (if 0 < n then npLen kshape.tail else Except.ok 0) with
      | Except.error e => Except.error e
      | Except.ok m =>
          match validateKeypointStructure kshape n m with
          | Except.error e => Except.error e
          | Except.ok _ =>
              match validateConfidence cshape n m with
              | Except.error e => Except.error e
              | Except.ok _ => Except.ok (kshape, cshape)

/-- A single-channel frame-sized numpy array (`np.zeros(scene.shape[:2])`).
Every value ever written is a sum of 0/1 masks, so entries are naturals. -/
abbrev Grid (h w : Nat) : Type := Fin h → Fin w → Nat

/-- A BGR frame: height × width of 8-bit channel triples. -/
abbrev Scene (h w : Nat) : Type := Fin h → Fin w → Nat × Nat × Nat

/-- Whether the pixel at column-x `x`, row-y `y` lies in the filled disk of
radius `r` centered at `c`: models the filled `cv2.circle` rasterization as
the Euclidean disk (for `r = 0` exactly the center pixel). -/
def inDisk (c : Int × Int) (r : Nat) (x y : Int) : Bool :=
  decide ((x - c.1) ^ 2 + (y - c.2) ^ 2 ≤ (r : Int) ^ 2)

/-- Models `cv2.circle(mask, center, radius, 1, -1)`: sets every pixel of the filled
disk to 1.  It sets, it does not add. -/
def drawCircleOne {h w : Nat} (c : Int × Int) (r : Nat) (m : Grid h w) : Grid h w :=
  fun i j => if inDisk c r ((j : Nat) : Int) ((i : Nat) : Int) then 1 else m i j

/-- The transient per-frame mask of `HeatmapAnnotator.annotate`
(src/supervision/annotators/core.py:179-181): zeros, then one filled disk of
value 1 per detection, centered at `get_xy(xyxy, position)`. -/
def heatFrameMask {h w : Nat} (pos : Option Position) (r : Nat)
    (dets : List Detection) : Grid h w :=
  dets.foldl (fun m d => drawCircleOne (getXY d.box pos) r m) fun _ _ => 0

/-- Embeds `self.heatmask = mask + self.heatmask`
(src/supervision/annotators/core.py:177-182), including the lazy
initialization `self.heatmask = np.zeros(scene.shape[:2])` when the state is
still `None`. -/
def heatUpdate {h w : Nat} (pos : Option Position) (r : Nat)
    (dets : List Detection) (hm : Option (Grid h w)) : Grid h w :=
  fun i j => heatFrameMask pos r dets i j + (hm.getD fun _ _ => 0) i j

/-- Global maximum of the accumulator (`temp.max()`). -/
def maxVal {h w : Nat} (g : Grid h w) : Nat :=
  Finset.sup Finset.univ fun i => Finset.sup Finset.univ fun j => g i j

/-- One display value of `temp = (100 - temp / temp.max() * 90).astype(uint8)`
for accumulated value `a` and positive global maximum `M`: the exact
real-arithmetic floor, `(100*M - 90*a) / M` (for `a ≤ M` it lies in
[10, 100]). -/
def display (M a : Nat) : Nat := (100 * M - 90 * a) / M

/-- Computes `cvRound` of the rational `num / den` (for `den > 0`): round to nearest,
ties to even, as OpenCV does — in pure integer arithmetic (`f` is the floor,
`rn / den` the fractional part). -/
def roundRatHalfEven (num den : Int) : Int :=
  let f := num.fdiv den
  let rn := num - f * den
  if 2 * rn < den then f
  else if den < 2 * rn then f + 1
  else if f % 2 = 0 then f else f + 1

/-- Saturating cast to an 8-bit value. -/
def satUint8 (z : Int) : Nat :=
  if z ≤ 0 then 0 else if 255 ≤ z then 255 else z.toNat

/-- One channel of the external `cv2.addWeighted(colored, op, scene, 1-op, 0)`
collaborator: `saturate(cvRound(op*c + (1-op)*s))`.  With `op = num/den` the
blended value is exactly the rational `(num*c + (den-num)*s) / den`, which is
what is fed to the rounding step. -/
def addW (op : ℚ) (c s : Nat) : Nat :=
  satUint8 (roundRatHalfEven (op.num * c + ((op.den : Int) - op.num) * s) (op.den : Int))

/-- Applies `cv2.addWeighted` to a BGR pixel. -/
def blendPix (op : ℚ) (c s : Nat × Nat × Nat) : Nat × Nat × Nat :=
  (addW op c.1 s.1, addW op c.2.1 s.2.1, addW op c.2.2 s.2.2)

/-- The external `cv2.cvtColor(hsv, COLOR_HSV2BGR)` collaborator on one 8-bit
pixel with S = V = 255 and hue `hv` (OpenCV 8-bit hue scale: sector
`hv / 30`, fraction `(hv mod 30) / 30`), in exact rational arithmetic. -/
def hsv2bgr (hv : Nat) : Nat × Nat × Nat :=
  let k := hv % 30
  let t := satUint8 (roundRatHalfEven (255 * (k : Int)) 30)
  let q := satUint8 (roundRatHalfEven (255 * (30 - (k : Int))) 30)
  match (hv / 30) % 6 with
  | 0 => (0, t, 255)
  | 1 => (0, 255, q)
  | 2 => (t, 255, 0)
  | 3 => (255, q, 0)
  | 4 => (255, 0, t)
  | _ => (q, 0, 255)

/-- Embeds `HeatmapAnnotator.annotate` (src/supervision/annotators/core.py:140-197)
in the `kernel_size=None` configuration (so the `GaussianBlur` branch is not
taken).  `hm` is the persistent `self.heatmask` (`none` before the first
call); the result is the updated heatmask together with the rendered scene.
The `mask = temp > 0` compositing step becomes the pointwise
`if 0 < display ...` guard.  A `none` second component models the unguarded
`temp / temp.max()` when `temp.max() == 0`: numpy evaluates 0/0 to NaN
(RuntimeWarning) and `astype(np.uint8)` of NaN is not defined behavior. -/
def annotateHeatmap {h w : Nat} (pos : Option Position) (op : ℚ) (r : Nat)
    (hm : Option (Grid h w)) (scene : Scene h w) (dets : List Detection) :
    Grid h w × Option (Scene h w) :=
  (heatUpdate pos r dets hm,
   if maxVal (heatUpdate pos r dets hm) = 0 then none
   else
     some fun i j =>
       if 0 < display (maxVal (heatUpdate pos r dets hm)) (heatUpdate pos r dets hm i j)
       then blendPix op
         (hsv2bgr (display (maxVal (heatUpdate pos r dets hm)) (heatUpdate pos r dets hm i j)))
         (scene i j)
       else scene i j)

/-- Accumulation over a sequence of frames' detection lists starting from the
all-zero accumulator: the repeated `self.heatmask = mask + self.heatmask`. -/
def accumFrames {h w : Nat} (pos : Option Position) (r : Nat)
    (frames : List (List Detection)) : Grid h w :=
  frames.foldl (fun g ds i j => heatFrameMask pos r ds i j + g i j) fun _ _ => 0

/-- Written from the claim's words, for comparison with the code: the total
number of (detection, frame) disk-coverings of a pixel across the history. -/
def spec_coverCount (pos : Option Position) (r : Nat)
    (frames : List (List Detection)) (x y : Int) : Nat :=
  frames.flatten.countP fun d => inDisk (getXY d.box pos) r x y

/-- A detection whose box is the single point (0,0); its TOP_LEFT anchor is
pixel (0,0). -/
def det00 : Detection := ⟨⟨0, 0, 0, 0⟩, none⟩

/-- Concrete 1×2 base frame: every pixel (7,7,7). -/
def baseScene12 : Scene 1 2 := fun _ _ => (7, 7, 7)

/-- Concrete 2×2 base frame: every pixel (7,7,7). -/
def baseScene22 : Scene 2 2 := fun _ _ => (7, 7, 7)

/-- Modelled from the spec: the `Trace` identity history buffer lives in
`supervision/annotators/utils.py`, which is not among the sources under
verification (only its caller `TraceAnnotator` is); this structure follows
spec sections 3 and 4.1 — a mapping from tracker identity to the ordered
(oldest to newest) sequence of anchor points, each sequence capped at
`trace_length` with FIFO eviction. -/
structure TraceBuffer where
  maxSize : Nat
  anchor : Option Position
  store : Int → List (Int × Int)

/-- Modelled from the spec: a fresh buffer (`TraceAnnotator.__init__` creates
`Trace(max_size=trace_length)`); every identity starts with no history. -/
def TraceBuffer.init (L : Nat) (anchor : Option Position) : TraceBuffer :=
  ⟨L, anchor, fun _ => []⟩

/-- Modelled from the spec: append one point to one identity's sequence,
evicting the oldest point beyond capacity `L` (FIFO). -/
def bufferPush (L : Nat) (s : List (Int × Int)) (pt : Int × Int) : List (Int × Int) :=
  if s.length < L then s ++ [pt] else (s ++ [pt]).drop (s.length + 1 - L)

/-- Modelled from the spec: `put` for one detection — a detection without a
tracker identity is silently ignored by the buffer; otherwise its anchor
point is appended to its identity's sequence. -/
def TraceBuffer.putOne (tb : TraceBuffer) (d : Detection) : TraceBuffer :=
  match d.trackerId with
  | none => tb
  | some tid =>
      ⟨tb.maxSize, tb.anchor, fun i =>
        if i = tid then bufferPush tb.maxSize (tb.store tid) (getXY d.box tb.anchor)
        else tb.store i⟩

/-- Modelled from the spec: `Trace.put(detections)` processes the frame's
detections in order; side effect only. -/
def TraceBuffer.put (tb : TraceBuffer) (dets : List Detection) : TraceBuffer :=
  dets.foldl TraceBuffer.putOne tb

/-- Modelled from the spec: `Trace.get(tracker_id)` returns the stored
sequence, oldest to newest; empty if the identity has never been seen; does
not mutate the buffer. -/
def TraceBuffer.get (tb : TraceBuffer) (tid : Int) : List (Int × Int) :=
  tb.store tid

/-- Feeding a sequence of frames through `put`, one call per frame. -/
def putFrames (tb : TraceBuffer) (frames : List (List Detection)) : TraceBuffer :=
  frames.foldl TraceBuffer.put tb

/-- The newest `L` elements of a list, insertion order preserved. -/
def lastN (L : Nat) (xs : List (Int × Int)) : List (Int × Int) :=
  xs.drop (xs.length - L)

/-- Written from the claim's words: every anchor point ever put for an
identity, in order. -/
def anchorHistory (anchor : Option Position) (frames : List (List Detection))
    (tid : Int) : List (Int × Int) :=
  (frames.flatten.filter fun d => decide (d.trackerId = some tid)).map
    fun d => getXY d.box anchor

/-- The draw loop of `TraceAnnotator.annotate`
(src/supervision/annotators/core.py:802-818): for every detection — whether
or not it carries an identity — `int(detections.tracker_id[detection_idx])`
is evaluated, which raises a `TypeError` when the tracker identity is absent;
otherwise the identity's stored history is drawn as a polyline when it has
more than one point.  `cv2.polylines` is an external drawing primitive, so
the scene effect is modelled as the list of `(tracker_id, points)` polyline
draw commands issued. -/
def traceDrawLoop (tb : TraceBuffer) :
    List Detection → Except String (List (Int × List (Int × Int)))
  | [] => Except.ok []
  | d :: ds =>
      match d.trackerId with
      | none => Except.error "TypeError: int() of a missing tracker_id"
      | some tid =>
          match traceDrawLoop tb ds with
          | Except.error e => Except.error e
          | Except.ok rest =>
              Except.ok (if 1 < (tb.get tid).length then (tid, tb.get tid) :: rest else rest)

/-- Embeds `TraceAnnotator.annotate` (src/supervision/annotators/core.py:771-819):
first `self.trace.put(detections)`, then the draw loop over all detections. -/
def traceAnnotate (tb : TraceBuffer) (dets : List Detection) :
    Except String (TraceBuffer × List (Int × List (Int × Int))) :=
  match traceDrawLoop (tb.put dets) dets with
  | Except.error e => Except.error e
  | Except.ok cmds => Except.ok (tb.put dets, cmds)

/-- The fields stored by `HeatmapAnnotator.__init__`
(src/supervision/annotators/core.py:94-113): the constructor body is four
plain assignments plus `self.heatmask = None` (the `none` accumulator state
later passed to `annotateHeatmap`); it validates nothing. -/
structure HeatmapInitFields where
  position : Option Position
  opacity : ℚ
  radius : Int
  kernelSize : Option Int
deriving DecidableEq, Repr

/-- Embeds `HeatmapAnnotator.__init__`: stores its arguments unvalidated. -/
def heatmapAnnotatorInit (position : Option Position) (opacity : ℚ) (radius : Int)
    (kernelSize : Option Int) : HeatmapInitFields :=
  ⟨position, opacity, radius, kernelSize⟩

end Supervision

/-- C9 counterexample: a keypoints array of shape (0, 5, 2) IS of shape
(N, M, 2) (with N = 0, M = 5), yet construction raises: `__post_init__`
recomputes `m = 0` whenever `len(keypoints) = 0` and then demands shape
(0, 0, 2) or (0, 0, 3). -/
theorem C9_counterexample :
    (∃ n m : Nat, [0, 5, 2] = [n, m, 2]) ∧
    Supervision.exceptOk (Supervision.keypointsInit [0, 5, 2] none) = false :=
  ⟨⟨0, 5, rfl⟩, rfl⟩

/-- C9 amended: construction succeeds exactly when the keypoints shape is
(n, m, 2) or (n, m, 3) with the extra constraint that m = 0 whenever n = 0
(because `m` is recomputed as 0 for empty keypoints), and the confidence
array, when present, has shape (n, m); every other input raises at
construction time, leaving no instance. -/
theorem C9_construction_ok_iff :
    ∀ (ks : List Nat) (cs : Option (List Nat)),
      Supervision.exceptOk (Supervision.keypointsInit ks cs) = true ↔
        ∃ n m k : Nat, ks = [n, m, k] ∧ (k = 2 ∨ k = 3) ∧ (n = 0 → m = 0) ∧
          (cs = none ∨ cs = some [n, m]) := by
  intro ks cs
  rcases ks with _ | ⟨a, t⟩
  · simp [Supervision.keypointsInit, Supervision.npLen, Supervision.exceptOk]
  rcases t with _ | ⟨b, u⟩
  · rcases a with _ | a'
    · simp [Supervision.keypointsInit, Supervision.npLen,
        Supervision.validateKeypointStructure, Supervision.exceptOk]
    · simp [Supervision.keypointsInit, Supervision.npLen, Supervision.exceptOk]
  rcases a with _ | a'
  · constructor
    · intro h
      by_cases hv : b = 0 ∧ u = [2] ∨ b = 0 ∧ u = [3]
      · rcases hv with ⟨hb, hu⟩ | ⟨hb, hu⟩ <;> subst hb <;> subst hu
        · refine ⟨0, 0, 2, rfl, Or.inl rfl, fun _ => rfl, ?_⟩
          rcases cs with _ | s
          · exact Or.inl rfl
          · by_cases hc : s = [0, 0]
            · exact Or.inr (by rw [hc])
            · exfalso
              simp [Supervision.keypointsInit, Supervision.npLen,
                Supervision.validateKeypointStructure,
                Supervision.validateConfidence, hc, Supervision.exceptOk] at h
        · refine ⟨0, 0, 3, rfl, Or.inr rfl, fun _ => rfl, ?_⟩
          rcases cs with _ | s
          · exact Or.inl rfl
          · by_cases hc : s = [0, 0]
            · exact Or.inr (by rw [hc])
            · exfalso
              simp [Supervision.keypointsInit, Supervision.npLen,
                Supervision.validateKeypointStructure,
                Supervision.validateConfidence, hc, Supervision.exceptOk] at h
      · exfalso
        simp [Supervision.keypointsInit, Supervision.npLen,
          Supervision.validateKeypointStructure, hv, Supervision.exceptOk] at h
    · rintro ⟨n, m, k, hks, hk, hnm, hcs⟩
      simp only [List.cons.injEq] at hks
      obtain ⟨h1, h2, h3⟩ := hks
      subst h1
      subst h2
      subst h3
      have hb : b = 0 := hnm rfl
      subst hb
      rcases hk with hk | hk <;> subst hk <;> rcases hcs with hcs | hcs <;> subst hcs <;> decide
  · constructor
    · intro h
      by_cases hv : u = [2] ∨ u = [3]
      · rcases hv with hu | hu <;> subst hu
        · refine ⟨a' + 1, b, 2, rfl, Or.inl rfl,
            fun h0 => absurd h0 (Nat.succ_ne_zero a'), ?_⟩
          rcases cs with _ | s
          · exact Or.inl rfl
          · by_cases hc : s = [a' + 1, b]
            · exact Or.inr (by rw [hc])
            · exfalso
              simp [Supervision.keypointsInit, Supervision.npLen,
                Supervision.validateKeypointStructure,
                Supervision.validateConfidence, hc, Supervision.exceptOk] at h
        · refine ⟨a' + 1, b, 3, rfl, Or.inr rfl,
            fun h0 => absurd h0 (Nat.succ_ne_zero a'), ?_⟩
          rcases cs with _ | s
          · exact Or.inl rfl
          · by_cases hc : s = [a' + 1, b]
            · exact Or.inr (by rw [hc])
            · exfalso
              simp [Supervision.keypointsInit, Supervision.npLen,
                Supervision.validateKeypointStructure,
                Supervision.validateConfidence, hc, Supervision.exceptOk] at h
      · exfalso
        simp [Supervision.keypointsInit, Supervision.npLen,
          Supervision.validateKeypointStructure, hv, Supervision.exceptOk] at h
    · rintro ⟨n, m, k, hks, hk, hnm, hcs⟩
      simp only [List.cons.injEq] at hks
      obtain ⟨h1, h2, h3⟩ := hks
      subst h1
      subst h2
      subst h3
      rcases hk with hk | hk <;> subst hk <;> rcases hcs with hcs | hcs <;> subst hcs <;>
        simp [Supervision.keypointsInit, Supervision.npLen,
          Supervision.validateKeypointStructure,
          Supervision.validateConfidence, Supervision.exceptOk]

namespace Supervision

theorem maxVal_ge {h w : Nat} (g : Grid h w) (i : Fin h) (j : Fin w) :
    g i j ≤ maxVal g := by
  show g i j ≤ Finset.sup Finset.univ fun i' => Finset.sup Finset.univ fun j' => g i' j'
  exact Finset.le_sup_of_le (Finset.mem_univ i) (Finset.le_sup (Finset.mem_univ j))

theorem display_ge_ten {M a : Nat} (hM : 0 < M) (ha : a ≤ M) : 10 ≤ display M a := by
  rw [display, Nat.le_div_iff_mul_le hM]
  omega

theorem display_of_zero {M : Nat} (hM : 0 < M) : display M 0 = 100 := by
  rw [display, Nat.mul_zero, Nat.sub_zero]
  exact Nat.mul_div_cancel 100 hM

theorem heatFrameMask_any {h w : Nat} (pos : Option Position) (r : Nat)
    (dets : List Detection) (i : Fin h) (j : Fin w) :
    heatFrameMask pos r dets i j =
      if dets.any fun d => inDisk (getXY d.box pos) r ((j : Nat) : Int) ((i : Nat) : Int)
      then 1 else 0 := by
  have main : ∀ (ds : List Detection) (m0 : Grid h w),
      ds.foldl (fun m d => drawCircleOne (getXY d.box pos) r m) m0 i j =
        if ds.any fun d => inDisk (getXY d.box pos) r ((j : Nat) : Int) ((i : Nat) : Int)
        then 1 else m0 i j := by
    intro ds
    induction ds with
    | nil => intro m0; simp
    | cons d t ih =>
        intro m0
        simp only [List.foldl_cons, List.any_cons]
        rw [ih]
        by_cases hd : inDisk (getXY d.box pos) r ((j : Nat) : Int) ((i : Nat) : Int) = true
        · simp [drawCircleOne, hd]
        · simp [drawCircleOne, hd]
  exact main dets fun _ _ => 0

theorem accumFrames_replicate {h w : Nat} (pos : Option Position) (r : Nat)
    (dets : List Detection) (K : Nat) (i : Fin h) (j : Fin w) :
    (accumFrames pos r (List.replicate K dets) : Grid h w) i j =
      K * heatFrameMask pos r dets i j := by
  have main : ∀ (n : Nat) (g0 : Grid h w),
      (List.replicate n dets).foldl (fun g ds i' j' => heatFrameMask pos r ds i' j' + g i' j')
          g0 i j =
        n * heatFrameMask pos r dets i j + g0 i j := by
    intro n
    induction n with
    | zero => intro g0; simp
    | succ n ih =>
        intro g0
        rw [List.replicate_succ, List.foldl_cons, ih]
        ring
  have hz := main K fun _ _ => 0
  simpa [accumFrames] using hz

end Supervision

/-- C5: the persistent accumulator is non-negative (it lives in ℕ by
construction: every write is a sum of 0/1 masks) and monotonically
non-decreasing across annotate calls, and the state transition of `annotate`
is exactly the accumulation step `heatmask = mask + heatmask`: the
display-time normalization works on the copy `temp` and contributes nothing
to the state (read-only). -/
theorem C5_accumulator_monotone_render_pure :
    ∀ (h w : Nat) (pos : Option Supervision.Position) (op : ℚ) (r : Nat)
      (g : Supervision.Grid h w) (scene : Supervision.Scene h w)
      (dets : List Supervision.Detection) (i : Fin h) (j : Fin w),
      (Supervision.annotateHeatmap pos op r (some g) scene dets).1 =
        Supervision.heatUpdate pos r dets (some g) ∧
      g i j ≤ Supervision.heatUpdate pos r dets (some g) i j := by
  intro h w pos op r g scene dets i j
  exact ⟨rfl, Nat.le_add_left _ _⟩

/-- C10: annotating with an empty detection set leaves the persistent
accumulator elementwise unchanged; the transient per-frame mask is the zero
grid, so the empty detection set is an identity element for the accumulation
step. -/
theorem C10_empty_frame_identity :
    ∀ (h w : Nat) (pos : Option Supervision.Position) (op : ℚ) (r : Nat)
      (g : Supervision.Grid h w) (scene : Supervision.Scene h w),
      (Supervision.annotateHeatmap pos op r (some g) scene []).1 = g ∧
      (Supervision.heatFrameMask pos r [] : Supervision.Grid h w) = fun _ _ => 0 := by
  intro h w pos op r g scene
  refine ⟨?_, rfl⟩
  funext i j
  show Supervision.heatFrameMask pos r [] i j + g i j = g i j
  simp [Supervision.heatFrameMask]

/-- C3 failing input, evaluated: on the first annotate call with an empty
detection set the accumulator is all-zero, its global maximum is 0, and the
render path divides by it — `temp / temp.max()` is numpy 0/0, producing NaN
whose `astype(np.uint8)` is not defined behavior (modelled as the `none`
render result).  There is no guard in the code. -/
theorem C3_zero_division_failing_input :
    (Supervision.annotateHeatmap (some Supervision.Position.BOTTOM_CENTER) 1 40 none
        Supervision.baseScene22 []).2 = none ∧
    Supervision.maxVal
        ((Supervision.annotateHeatmap (some Supervision.Position.BOTTOM_CENTER) 1 40 none
          Supervision.baseScene22 []).1) = 0 := by
  refine ⟨by decide, by decide⟩

/-- C4 counterexample: two detections in the same frame with the same anchor
(two coincident radius-0 disks).  `cv2.circle` sets mask pixels to 1, so the
two coverings saturate: after one frame the accumulator holds 1 at the
covered pixel while the number of (detection, frame) disk-coverings is 2 —
the claim's "accumulator equals total coverings" fails. -/
theorem C4_counterexample_overlap_saturates :
    (Supervision.accumFrames (some Supervision.Position.TOP_LEFT) 0
        [[Supervision.det00, Supervision.det00]] : Supervision.Grid 1 1) 0 0 = 1 ∧
    Supervision.spec_coverCount (some Supervision.Position.TOP_LEFT) 0
        [[Supervision.det00, Supervision.det00]] 0 0 = 2 ∧
    (1 : Nat) ≠ 2 := by
  refine ⟨by decide, by decide, by decide⟩

/-- C4 amended: accumulation across frames is additive — K identical frames
give exactly K times the single-frame mask at every pixel — but the
single-frame mask is the 0/1 indicator of coverage by at least one disk
(overlapping disks within one frame do not sum), so the accumulator counts
covered frames, not (detection, frame) coverings. -/
theorem C4_additive_over_frames :
    ∀ (h w : Nat) (pos : Option Supervision.Position) (r : Nat)
      (dets : List Supervision.Detection) (K : Nat) (i : Fin h) (j : Fin w),
      (Supervision.accumFrames pos r (List.replicate K dets) : Supervision.Grid h w) i j =
        K * Supervision.heatFrameMask pos r dets i j ∧
      (Supervision.heatFrameMask pos r dets : Supervision.Grid h w) i j =
        (if dets.any fun d =>
            Supervision.inDisk (Supervision.getXY d.box pos) r ((j : Nat) : Int) ((i : Nat) : Int)
         then 1 else 0) := by
  intro h w pos r dets K i j
  exact ⟨Supervision.accumFrames_replicate pos r dets K i j,
    Supervision.heatFrameMask_any pos r dets i j⟩

/-- C2 counterexample: one radius-0 detection anchored at pixel (0,0) of a
1×2 frame, opacity 1, no blur.  Pixel (0,1) is never covered by any disk
(its accumulator entry is 0), yet its display value is 100 — nonzero — so
`mask = temp > 0` selects it and the render replaces it with the colorized
"cold" hue-100 color (255,170,0) instead of leaving it equal to the base
frame value (7,7,7). -/
theorem C2_counterexample :
    (Supervision.annotateHeatmap (some Supervision.Position.TOP_LEFT) 1 0 none
        Supervision.baseScene12 [Supervision.det00]).1 0 1 = 0 ∧
    Option.map (fun s => s 0 1)
        (Supervision.annotateHeatmap (some Supervision.Position.TOP_LEFT) 1 0 none
          Supervision.baseScene12 [Supervision.det00]).2 = some (255, 170, 0) ∧
    Supervision.baseScene12 0 1 = (7, 7, 7) ∧
    ((255, 170, 0) : Nat × Nat × Nat) ≠ (7, 7, 7) := by
  refine ⟨by decide, by decide, rfl, by decide⟩

/-- C2 amended: the compositing mask is `display value > 0`, and once the
accumulator maximum is positive every pixel's display value is positive
(untouched pixels sit at display value 100, not 0), so the alpha blend is
applied to every pixel of the frame — never-covered pixels included — rather
than leaving never-covered pixels equal to the base frame. -/
theorem C2_composite_touches_every_pixel :
    ∀ (h w : Nat) (pos : Option Supervision.Position) (op : ℚ) (r : Nat)
      (hm : Option (Supervision.Grid h w)) (scene : Supervision.Scene h w)
      (dets : List Supervision.Detection) (i : Fin h) (j : Fin w),
      0 < Supervision.maxVal (Supervision.heatUpdate pos r dets hm) →
      (Supervision.annotateHeatmap pos op r hm scene dets).2 =
        some (fun i' j' =>
          Supervision.blendPix op
            (Supervision.hsv2bgr
              (Supervision.display (Supervision.maxVal (Supervision.heatUpdate pos r dets hm))
                (Supervision.heatUpdate pos r dets hm i' j')))
            (scene i' j')) ∧
      (Supervision.heatUpdate pos r dets hm i j = 0 →
        Supervision.display (Supervision.maxVal (Supervision.heatUpdate pos r dets hm))
          (Supervision.heatUpdate pos r dets hm i j) = 100) := by
  intro h w pos op r hm scene dets i j hM
  constructor
  · have hdef : (Supervision.annotateHeatmap pos op r hm scene dets).2 =
        (if Supervision.maxVal (Supervision.heatUpdate pos r dets hm) = 0 then none
         else
           some fun i' j' =>
             if 0 < Supervision.display (Supervision.maxVal (Supervision.heatUpdate pos r dets hm))
                  (Supervision.heatUpdate pos r dets hm i' j')
             then Supervision.blendPix op
               (Supervision.hsv2bgr
                 (Supervision.display (Supervision.maxVal (Supervision.heatUpdate pos r dets hm))
                   (Supervision.heatUpdate pos r dets hm i' j')))
               (scene i' j')
             else scene i' j') := rfl
    rw [hdef, if_neg (Nat.pos_iff_ne_zero.mp hM)]
    congr 1
    funext i' j'
    rw [if_pos]
    have h10 := Supervision.display_ge_ten hM (Supervision.maxVal_ge _ i' j')
    omega
  · intro h0
    rw [h0]
    exact Supervision.display_of_zero hM

/-- Witness for C2 amended: the concrete 1×2 scenario has a positive
accumulator maximum, and its never-covered pixel (0,1) gets display value
100 (hence is composited). -/
theorem C2_composite_touches_every_pixel_witness :
    Supervision.display
        (Supervision.maxVal (Supervision.heatUpdate (some Supervision.Position.TOP_LEFT) 0
          [Supervision.det00] (none : Option (Supervision.Grid 1 2))))
        (Supervision.heatUpdate (some Supervision.Position.TOP_LEFT) 0
          [Supervision.det00] (none : Option (Supervision.Grid 1 2)) 0 1) = 100 :=
  (C2_composite_touches_every_pixel 1 2 (some Supervision.Position.TOP_LEFT) 1 0 none
      Supervision.baseScene12 [Supervision.det00] 0 1 (by decide)).2 (by decide)

/-- C8 counterexample: constructing the heatmap annotator with opacity 2
(outside [0,1]) and even kernel size 4 succeeds and returns an annotator
storing exactly those invalid values — no configuration error is reported at
construction time. -/
theorem C8_counterexample :
    Supervision.heatmapAnnotatorInit (some Supervision.Position.BOTTOM_CENTER) 2 40 (some 4) =
      ⟨some Supervision.Position.BOTTOM_CENTER, 2, 40, some 4⟩ ∧
    ¬((2 : ℚ) ≤ 1) ∧ (4 : Int) % 2 = 0 := by
  refine ⟨rfl, by norm_num, by decide⟩

/-- C8 amended: `HeatmapAnnotator.__init__` performs no validation at all —
for every argument combination, including out-of-range opacity and
non-positive or even kernel sizes, it returns a fully constructed annotator
storing exactly the given values; invalid configuration is not reported at
construction (nor anywhere else in `__init__`). -/
theorem C8_constructor_never_validates :
    ∀ (p : Option Supervision.Position) (o : ℚ) (r : Int) (k : Option Int),
      Supervision.heatmapAnnotatorInit p o r k = ⟨p, o, r, k⟩ := by
  intro p o r k
  rfl

/-- C7 counterexample: a frame whose only detection carries no tracker
identity makes `TraceAnnotator.annotate` raise (the draw loop evaluates
`int(detections.tracker_id[detection_idx])` for every detection), refuting
"its absence of identity never raises an error". -/
theorem C7_counterexample :
    Supervision.exceptOk
        (Supervision.traceAnnotate
          (Supervision.TraceBuffer.init 30 (some Supervision.Position.CENTER))
          [⟨⟨0, 0, 10, 20⟩, none⟩]) = false := by
  rfl

/-- C7 amended: a detection without tracker identity contributes no point to
any identity's history (the buffer's put skips it), but `annotate` does
raise: its drawing loop reads the tracker identity of every detection, so
the call fails whenever any detection in the frame lacks one. -/
theorem C7_skip_in_buffer_but_annotate_raises :
    (∀ (tb : Supervision.TraceBuffer) (d : Supervision.Detection),
        d.trackerId = none → tb.putOne d = tb) ∧
    (∀ (tb : Supervision.TraceBuffer) (dets : List Supervision.Detection),
        (∃ d ∈ dets, d.trackerId = none) →
          Supervision.exceptOk (Supervision.traceAnnotate tb dets) = false) := by
  constructor
  · intro tb d hd
    unfold Supervision.TraceBuffer.putOne
    rw [hd]
  · intro tb dets hex
    have main : ∀ (ds : List Supervision.Detection) (tb' : Supervision.TraceBuffer),
        (∃ d ∈ ds, d.trackerId = none) →
          Supervision.exceptOk (Supervision.traceDrawLoop tb' ds) = false := by
      intro ds
      induction ds with
      | nil =>
          intro tb' hex0
          obtain ⟨d, hd, _⟩ := hex0
          exact absurd hd (List.not_mem_nil d)
      | cons d t ih =>
          intro tb' hex0
          cases hdid : d.trackerId with
          | none => simp [Supervision.traceDrawLoop, hdid, Supervision.exceptOk]
          | some tid =>
              obtain ⟨d', hd', hnone⟩ := hex0
              rcases List.mem_cons.mp hd' with hh | hh
              · subst hh
                rw [hdid] at hnone
                exact absurd hnone (by simp)
              · have ht := ih tb' ⟨d', hh, hnone⟩
                cases hrec : Supervision.traceDrawLoop tb' t with
                | error e =>
                    simp [Supervision.traceDrawLoop, hdid, hrec, Supervision.exceptOk]
                | ok rest =>
                    rw [hrec] at ht
                    simp [Supervision.exceptOk] at ht
    cases hcase : Supervision.traceDrawLoop (Supervision.TraceBuffer.put tb dets) dets with
    | error e =>
        unfold Supervision.traceAnnotate
        rw [hcase]
        rfl
    | ok rest =>
        have hcontr := main dets (Supervision.TraceBuffer.put tb dets) hex
        rw [hcase] at hcontr
        simp [Supervision.exceptOk] at hcontr

/-- Witness for C7 amended: an identity-less detection leaves a fresh buffer
unchanged, and annotating a frame containing it fails. -/
theorem C7_skip_in_buffer_but_annotate_raises_witness :
    (Supervision.TraceBuffer.init 30 (some Supervision.Position.CENTER)).putOne
        ⟨⟨0, 0, 1, 1⟩, none⟩ =
      Supervision.TraceBuffer.init 30 (some Supervision.Position.CENTER) ∧
    Supervision.exceptOk
        (Supervision.traceAnnotate
          (Supervision.TraceBuffer.init 30 (some Supervision.Position.CENTER))
          [⟨⟨0, 0, 1, 1⟩, none⟩]) = false :=
  ⟨C7_skip_in_buffer_but_annotate_raises.1 _ _ rfl,
   C7_skip_in_buffer_but_annotate_raises.2 _ _
     ⟨⟨⟨0, 0, 1, 1⟩, none⟩, List.mem_singleton_self _, rfl⟩⟩

namespace Supervision

theorem lastN_length_le (L : Nat) (xs : List (Int × Int)) : (lastN L xs).length ≤ L := by
  rw [lastN, List.length_drop]
  omega

theorem lastN_nil (L : Nat) : lastN L [] = [] := by
  rw [lastN]
  simp

theorem bufferPush_lastN (L : Nat) (s : List (Int × Int)) (pt : Int × Int) :
    bufferPush L s pt = lastN L (s ++ [pt]) := by
  rw [bufferPush, lastN]
  by_cases hlt : s.length < L
  · rw [if_pos hlt]
    have hz : (s ++ [pt]).length - L = 0 := by
      rw [List.length_append]
      simp
      omega
    rw [hz, List.drop_zero]
  · rw [if_neg hlt]
    congr 1
    rw [List.length_append]
    simp

theorem lastN_push (L : Nat) (h : List (Int × Int)) (pt : Int × Int) :
    lastN L (lastN L h ++ [pt]) = lastN L (h ++ [pt]) := by
  unfold lastN
  rw [List.drop_append_eq_append_drop, List.drop_append_eq_append_drop, List.drop_drop]
  simp only [List.length_append, List.length_drop, List.length_cons, List.length_nil]
  congr 1
  · congr 1
    omega
  · congr 1
    omega

theorem put_append (tb : TraceBuffer) (l₁ l₂ : List Detection) :
    tb.put (l₁ ++ l₂) = (tb.put l₁).put l₂ := by
  unfold TraceBuffer.put
  exact List.foldl_append TraceBuffer.putOne tb l₁ l₂

theorem putFrames_eq_put_flatten (frames : List (List Detection)) :
    ∀ tb : TraceBuffer, putFrames tb frames = tb.put frames.flatten := by
  induction frames with
  | nil => intro tb; rfl
  | cons f fs ih =>
      intro tb
      rw [List.flatten_cons, put_append]
      exact ih (tb.put f)

theorem putList_get (L : Nat) (anchor : Option Position) :
    ∀ (ds : List Detection) (tb : TraceBuffer) (hist : Int → List (Int × Int)),
      tb.maxSize = L → tb.anchor = anchor →
      (∀ tid, tb.store tid = lastN L (hist tid)) →
      ∀ tid, (TraceBuffer.put tb ds).store tid =
        lastN L (hist tid ++
          ((ds.filter fun d => decide (d.trackerId = some tid)).map
            fun d => getXY d.box anchor)) := by
  intro ds
  induction ds with
  | nil =>
      intro tb hist hL ha hinv tid
      rw [List.filter_nil, List.map_nil, List.append_nil]
      exact hinv tid
  | cons d t ih =>
      intro tb hist hL ha hinv tid
      have hstep : TraceBuffer.put tb (d :: t) = TraceBuffer.put (tb.putOne d) t := rfl
      rw [hstep]
      cases hdid : d.trackerId with
      | none =>
          have hput : tb.putOne d = tb := by
            unfold TraceBuffer.putOne
            rw [hdid]
          rw [hput]
          have := ih tb hist hL ha hinv tid
          rw [this]
          congr 2
          rw [List.filter_cons]
          simp [hdid]
      | some tid' =>
          have h1 : (tb.putOne d).maxSize = L := by
            simp only [TraceBuffer.putOne, hdid]
            exact hL
          have h2 : (tb.putOne d).anchor = anchor := by
            simp only [TraceBuffer.putOne, hdid]
            exact ha
          have h3 : ∀ i, (tb.putOne d).store i =
              lastN L (if i = tid' then hist i ++ [getXY d.box anchor] else hist i) := by
            intro i
            simp only [TraceBuffer.putOne, hdid]
            by_cases hi : i = tid'
            · subst hi
              rw [if_pos rfl, if_pos rfl, hL, ha, hinv i, bufferPush_lastN, lastN_push]
            · rw [if_neg hi, if_neg hi]
              exact hinv i
          have hmain := ih (tb.putOne d)
            (fun i => if i = tid' then hist i ++ [getXY d.box anchor] else hist i)
            h1 h2 h3 tid
          rw [hmain]
          by_cases hi : tid = tid'
          · subst hi
            rw [if_pos rfl]
            congr 1
            rw [List.filter_cons]
            simp [hdid, List.append_assoc]
          · rw [if_neg hi]
            congr 2
            rw [List.filter_cons]
            have : decide (d.trackerId = some tid) = false := by
              rw [hdid]
              simp
              intro hcc
              exact absurd hcc.symm hi
            rw [this]
            simp

end Supervision

/-- C1: for every frame sequence fed to the identity history buffer with
capacity L and every tracker identity, `get` returns at most L points, in
insertion order, and they are exactly the most recent at-most-L anchor
points ever put for that identity; in particular with L = 3, putting points
(1,1),(2,2),(3,3),(4,4) for identity 7 over four frames makes `get 7`
return [(2,2),(3,3),(4,4)]. -/
theorem C1_history_buffer :
    (∀ (L : Nat) (anchor : Option Supervision.Position)
        (frames : List (List Supervision.Detection)) (tid : Int),
        ((Supervision.putFrames (Supervision.TraceBuffer.init L anchor) frames).get tid).length
            ≤ L ∧
        (Supervision.putFrames (Supervision.TraceBuffer.init L anchor) frames).get tid =
          Supervision.lastN L (Supervision.anchorHistory anchor frames tid)) ∧
    (Supervision.putFrames (Supervision.TraceBuffer.init 3 (some Supervision.Position.CENTER))
        [[⟨⟨1, 1, 1, 1⟩, some 7⟩], [⟨⟨2, 2, 2, 2⟩, some 7⟩],
         [⟨⟨3, 3, 3, 3⟩, some 7⟩], [⟨⟨4, 4, 4, 4⟩, some 7⟩]]).get 7 =
      [(2, 2), (3, 3), (4, 4)] := by
  constructor
  · intro L anchor frames tid
    have hget : (Supervision.putFrames (Supervision.TraceBuffer.init L anchor) frames).get tid =
        Supervision.lastN L (Supervision.anchorHistory anchor frames tid) := by
      rw [Supervision.TraceBuffer.get, Supervision.putFrames_eq_put_flatten]
      have := Supervision.putList_get L anchor frames.flatten
        (Supervision.TraceBuffer.init L anchor) (fun _ => []) rfl rfl
        (fun _ => (Supervision.lastN_nil L).symm) tid
      rw [this, List.nil_append]
      rfl
    exact ⟨hget ▸ Supervision.lastN_length_le L _, hget⟩
  · decide

/-- C6: anchor-point computation is a pure function of the box and the
configured position (congruence), midpoints truncate, and on the box
(0, 0, 10, 20) the bottom-center anchor is (5, 20) and the top-left anchor
is (0, 0); the box (0, 0, 5, 1) with CENTER shows truncation of both
half-integer midpoints (2.5, 0.5) to (2, 0). -/
theorem C6_anchor_pure_and_scenario :
    (∀ (b b' : Supervision.Box) (p p' : Option Supervision.Position),
        b = b' → p = p' → Supervision.getXY b p = Supervision.getXY b' p') ∧
    Supervision.getXY ⟨0, 0, 10, 20⟩ (some Supervision.Position.BOTTOM_CENTER) = (5, 20) ∧
    Supervision.getXY ⟨0, 0, 10, 20⟩ (some Supervision.Position.TOP_LEFT) = (0, 0) ∧
    Supervision.getXY ⟨0, 0, 5, 1⟩ (some Supervision.Position.CENTER) = (2, 0) := by
  refine ⟨?_, by decide, by decide, by decide⟩
  intro b b' p p' hb hp
  rw [hb, hp]

/-- Witness for C6: the congruence applied at a concrete box and position. -/
theorem C6_anchor_witness :
    Supervision.getXY ⟨0, 0, 10, 20⟩ (some Supervision.Position.BOTTOM_CENTER) =
      Supervision.getXY ⟨0, 0, 10, 20⟩ (some Supervision.Position.BOTTOM_CENTER) :=
  C6_anchor_pure_and_scenario.1 _ _ _ _ rfl rfl
